import Mathlib

/-!
Verification of the `openapi2jsonschema` conversion pipeline
(`openapi2jsonschema/command.py`, function `process`).

The embedding models parsed YAML/JSON document trees as `JValue`
(association lists for mappings, preserving insertion order exactly as
Python 3.7+ dicts do), and the `process` function as a pure function
producing the ordered list of `(filename, document)` pairs handed to the
persistence collaborator, the per-type error log, the "emitted types"
list, and the final state of the (destructively mutated) components
container.

Helper routines imported from the repository's `util` module are not part
of the provided sources; they are modelled from the specification and
marked as such in their doc comments.
-/

set_option autoImplicit false

namespace Openapi2Jsonschema

/-- A parsed JSON/YAML document tree.  Mappings are association lists in
insertion order (Python dict semantics); scalars cover the cases the
converter manipulates. -/
inductive JValue where
  | null : JValue
  | bool : Bool → JValue
  | num : Int → JValue
  | str : String → JValue
  | arr : List JValue → JValue
  | obj : List (String × JValue) → JValue

mutual

/-- Boolean equality of document trees (Python `==` on parsed JSON
values, restricted to the value kinds of the model). -/
def jbeq : JValue → JValue → Bool
  | .null, .null => true
  | .bool a, .bool b => a = b
  | .num a, .num b => a = b
  | .str a, .str b => a = b
  | .arr a, .arr b => jbeqList a b
  | .obj a, .obj b => jbeqObj a b
  | _, _ => false

def jbeqList : List JValue → List JValue → Bool
  | [], [] => true
  | a :: as, b :: bs => jbeq a b && jbeqList as bs
  | _, _ => false

def jbeqObj : List (String × JValue) → List (String × JValue) → Bool
  | [], [] => true
  | (k, a) :: as, (l, b) :: bs => k = l && jbeq a b && jbeqObj as bs
  | _, _ => false

end

/-- First-occurrence lookup in an association list (Python `d[k]` /
`d.get(k)` read; Python dicts cannot hold duplicate keys, so on
well-formed inputs the first occurrence is the only one). -/
def lookupEntries : List (String × JValue) → String → Option JValue
  | [], _ => none
  | (k, v) :: rest, key => if k = key then some v else lookupEntries rest key

/-- Python `d[k] = v`: replace the value at the first occurrence of `k`
keeping its position, or append a fresh entry at the end. -/
def setEntries : List (String × JValue) → String → JValue → List (String × JValue)
  | [], key, val => [(key, val)]
  | (k, v) :: rest, key, val =>
      if k = key then (key, val) :: rest else (k, v) :: setEntries rest key val

def hasKey (es : List (String × JValue)) (key : String) : Bool :=
  (lookupEntries es key).isSome

/-- Mapping lookup lifted to `JValue`; `none` on non-mappings. -/
def JValue.lookup : JValue → String → Option JValue
  | .obj es, key => lookupEntries es key
  | _, _ => none

/-- Mapping update lifted to `JValue`; identity on non-mappings (the
Python code only assigns into dicts on the paths modelled here). -/
def JValue.set : JValue → String → JValue → JValue
  | .obj es, key, val => .obj (setEntries es key val)
  | v, _, _ => v

/-- Python `d.setdefault(k, dflt)` used for its insertion effect only. -/
def JValue.setdefault (v : JValue) (key : String) (dflt : JValue) : JValue :=
  match v.lookup key with
  | some _ => v
  | none => v.set key dflt

/-- Python truthiness of a document node (`if x:`). -/
def JValue.truthy : JValue → Bool
  | .null => false
  | .bool b => b
  | .num n => n ≠ 0
  | .str s => s ≠ ""
  | .arr xs => !xs.isEmpty
  | .obj es => !es.isEmpty

def truthyOpt : Option JValue → Bool
  | some v => v.truthy
  | none => false

/-- Substring test over character lists (Python `"a" in "abc"`). -/
def substrAux (pat : List Char) : List Char → Bool
  | [] => pat = []
  | c :: rest => pat.isPrefixOf (c :: rest) || substrAux pat rest

/-- Python's `key in container` for the container kinds that do not raise:
key membership for mappings, element membership for sequences, substring
test for strings.  (On numbers/booleans/null Python raises `TypeError`;
the model returns `false` there, and theorems touching this operation
restrict the container to the mapping shape the data model prescribes.) -/
def pyContains (v : JValue) (key : String) : Bool :=
  match v with
  | .obj es => hasKey es key
  | .arr xs => xs.any (fun x => jbeq x (.str key))
  | .str s => substrAux key.data s.data
  | _ => false

def optContains (o : Option JValue) (key : String) : Bool :=
  match o with
  | some v => pyContains v key
  | none => false

/-- Python `title.split(".")` over the character list (structural, so it
evaluates by kernel reduction): splits on every dot, keeping empty
segments, and returns `[""]` on the empty string. -/
def splitDotChars : List Char → List (List Char)
  | [] => [[]]
  | c :: rest =>
      let r := splitDotChars rest
      if c = '.' then [] :: r
      else
        match r with
        | g :: gs => (c :: g) :: gs
        | [] => [[c]]

def splitDot (s : String) : List String :=
  (splitDotChars s.data).map (fun cs => ⟨cs⟩)

/-- Last dot-delimited segment of a qualified type name (the Kind);
`splitDot` never returns `[]`, so the default is unreachable. -/
def lastSeg (s : String) : String :=
  (splitDot s).getLastD ""

/-- Python `str.lower()` restricted to ASCII case mapping (the converter
only lowercases ASCII group/version/Kind segments). -/
def lowerStr (s : String) : String :=
  ⟨s.data.map Char.toLower⟩

/-- Fueled replacement of every non-overlapping occurrence of `pat`,
left to right (Python `str.replace` for a non-empty pattern).  The fuel
equals the length of the subject, which every step strictly consumes. -/
def replaceFuel (pat repl : List Char) : Nat → List Char → List Char
  | _, [] => []
  | 0, l => l
  | Nat.succ n, c :: rest =>
      if pat ≠ [] && pat.isPrefixOf (c :: rest) then
        repl ++ replaceFuel pat repl n ((c :: rest).drop pat.length)
      else
        c :: replaceFuel pat repl n rest

/-- Python `s.replace(pat, repl)`; the converter only uses a non-empty
constant pattern, and the model returns `s` unchanged on an empty one. -/
def strReplace (s pat repl : String) : String :=
  if pat = "" then s
  else ⟨replaceFuel pat.data repl.data s.data.length s.data⟩

/-- Lexicographic comparison of character lists by code point. -/
def charListLt : List Char → List Char → Bool
  | [], [] => false
  | [], _ :: _ => true
  | _ :: _, [] => false
  | a :: as, b :: bs =>
      if a.val.toNat < b.val.toNat then true
      else if b.val.toNat < a.val.toNat then false
      else charListLt as bs

/-- Python's `<` on strings: lexicographic comparison by code point
(used for the `version < "3"` family split, command.py line 46). -/
def strLt (a b : String) : Bool := charListLt a.data b.data

/-- Configuration flags of `process` (the `output` directory is the
external persistence collaborator and is not part of the model; `pfx` is
the `prefix` argument, renamed because `prefix` is a Lean keyword). -/
structure Config where
  pfx : String
  stand_alone : Bool
  expanded : Bool
  kubernetes : Bool
  strict : Bool
  only_top_level : Bool

/-- The synthetic IntOrString definition injected in Kubernetes mode for
pre-3.0 documents (command.py lines 54-56). -/
def intOrStringSchema : JValue :=
  .obj [("oneOf", .arr [.obj [("type", .str "string")], .obj [("type", .str "integer")]])]

/-- The synthetic Quantity definition injected in Kubernetes mode for
pre-3.0 documents (command.py lines 61-63). -/
def quantitySchema : JValue :=
  .obj [("oneOf", .arr [.obj [("type", .str "string")], .obj [("type", .str "number")]])]

def intOrStringName : String := "io.k8s.apimachinery.pkg.util.intstr.IntOrString"

def quantityName : String := "io.k8s.apimachinery.pkg.api.resource.Quantity"

/-- Modelled from the spec: `append_no_duplicates` from the repository's
`util` module (not among the provided sources).  Per the spec it appends
a value to the property's `enum` list "avoiding duplicate entries"
("Appending the same enum value twice to the same property never
produces a duplicate"); a missing `enum` list is created. -/
def append_no_duplicates (o : JValue) (key : String) (value : JValue) : JValue :=
  match o.lookup key with
  | some (.arr xs) => if xs.any (fun x => jbeq x value) then o else o.set key (.arr (xs ++ [value]))
  | _ => o.set key (.arr [value])

/-- Python `sep.join(parts)`. -/
def joinStr (sep : String) : List String → String
  | [] => ""
  | [x] => x
  | x :: y :: rest => x ++ sep ++ joinStr sep (y :: rest)

/-- `"/".join(filter(None, [group, version]))` for string-valued group
and version fields (command.py lines 75-77): falsy (empty) components
are dropped before joining with a slash. -/
def apiVersionEnumValue (group version : String) : String :=
  joinStr "/" ([group, version].filter (fun s => s ≠ ""))

/-- `str.join` argument check: every joined item must be a string, in
order (Python raises `TypeError` at the first non-string item). -/
def expectStrs : List JValue → Except String (List String)
  | [] => .ok []
  | .str s :: rest => (expectStrs rest).map (fun l => s :: l)
  | _ :: _ => .error "TypeError: sequence item: expected str instance"

/-- `"/".join(filter(None, [kube_ext["group"], kube_ext["version"]]))`
on raw document values: truthiness filtering first, then each kept
component must be a string (otherwise Python's `str.join` raises). -/
def joinGV (g v : JValue) : Except String String := do
  let strs ← expectStrs ([g, v].filter JValue.truthy)
  pure (joinStr "/" strs)

/-- One `x-kubernetes-group-version-kind` entry applied to a type's
`properties` mapping (command.py lines 73-86): if an `apiVersion`
property exists, append the joined group/version string to its `enum`;
if a `kind` property exists, append the entry's `kind` value to its
`enum`.  Missing `group`/`version`/`kind` keys on the extension entry
raise `KeyError`, which is not caught anywhere in `process`. -/
def applyGVKExt (props ext : JValue) : Except String JValue := do
  let props ←
    if pyContains props "apiVersion" then do
      let g ← match ext.lookup "group" with
        | some x => pure x
        | none => Except.error "KeyError: group"
      let v ← match ext.lookup "version" with
        | some x => pure x
        | none => Except.error "KeyError: version"
      let api_version ← joinGV g v
      match props.lookup "apiVersion" with
      | some av => pure (props.set "apiVersion" (append_no_duplicates av "enum" (.str api_version)))
      | none => Except.error "KeyError: apiVersion"
    else pure props
  if pyContains props "kind" then do
    let k ← match ext.lookup "kind" with
      | some x => pure x
      | none => Except.error "KeyError: kind"
    match props.lookup "kind" with
    | some kd => pure (props.set "kind" (append_no_duplicates kd "enum" k))
    | none => Except.error "KeyError: kind"
  else pure props

def applyGVKExts (props : JValue) : List JValue → Except String JValue
  | [] => .ok props
  | ext :: rest => do
      let props' ← applyGVKExt props ext
      applyGVKExts props' rest

/-- Container-level Kubernetes enrichment of a single type definition
(command.py lines 66-86): a type without a `properties` key is logged
("«name» has no properties") and left unchanged; otherwise each entry of
`x-kubernetes-group-version-kind` (default `[]`) is applied in order to
the `properties` mapping, which is mutated in place (modelled by setting
the updated mapping back into the definition). -/
def enrichEntry (type_name : String) (type_def : JValue) : Except String (JValue × List String) :=
  match type_def with
  | .obj es =>
    match lookupEntries es "properties" with
    | none => .ok (type_def, [type_name ++ " has no properties"])
    | some props₀ =>
      match lookupEntries es "x-kubernetes-group-version-kind" with
      | some (.arr exts) => do
          let props ← applyGVKExts props₀ exts
          .ok ((JValue.obj es).set "properties" props, [])
      | some _ => .error "TypeError: not iterable"
      | none => do
          let props ← applyGVKExts props₀ []
          .ok ((JValue.obj es).set "properties" props, [])
  | _ => .error "TypeError: type definition is not a mapping"

/-- The container-level GVK loop over every `(name, definition)` pair in
container order, accumulating the per-type "has no properties" log
lines; a `KeyError` from a malformed extension entry aborts the whole
run (it is raised outside any try/except). -/
def gvkEnrichEntries : List (String × JValue) → Except String (List (String × JValue) × List String)
  | [] => .ok ([], [])
  | (n, d) :: rest => do
      let (d', errs₁) ← enrichEntry n d
      let (rest', errs₂) ← gvkEnrichEntries rest
      .ok ((n, d') :: rest', errs₁ ++ errs₂)

/-- Kubernetes container-level enrichment for pre-3.0 documents
(command.py lines 53-86): overwrite-inject the synthetic IntOrString and
Quantity definitions, then run the GVK loop over the whole container. -/
def enrichComponents (comps : List (String × JValue)) :
    Except String (List (String × JValue) × List String) :=
  gvkEnrichEntries
    (setEntries (setEntries comps intOrStringName intOrStringSchema) quantityName quantitySchema)

/-- Rewrite a single `$ref` string (spec §4.1): pre-3.0 references of
the form `#/definitions/<Name>` gain the configured prefix; 3.0+
references `#/components/schemas/<Name>` become `<Name>.json`. -/
def rewriteRefString (pfx version s : String) : String :=
  if strLt version "3" then
    if ("#/definitions/".data).isPrefixOf s.data then pfx ++ s else s
  else
    if ("#/components/schemas/".data).isPrefixOf s.data then
      String.mk (s.data.drop ("#/components/schemas/".data).length) ++ ".json"
    else s

/-- A `$ref` value: strings are rewritten, anything else is passed
through (the reference scheme only ever stores strings there). -/
def rewriteRefValue (pfx version : String) : JValue → JValue
  | .str s => .str (rewriteRefString pfx version s)
  | v => v

mutual

/-- Modelled from the spec: `change_dict_values` from the repository's
`util` module (not among the provided sources) — the Reference Rewriter
of spec §4.1.  It visits every node recursively and rewrites the value
under every `$ref` key; non-`$ref` scalars and structure pass through
unchanged. -/
def change_dict_values (pfx version : String) : JValue → JValue
  | .obj es => .obj (change_dict_values_entries pfx version es)
  | .arr xs => .arr (change_dict_values_list pfx version xs)
  | v => v

def change_dict_values_entries (pfx version : String) :
    List (String × JValue) → List (String × JValue)
  | [] => []
  | (k, v) :: rest =>
      (k, if k = "$ref" then rewriteRefValue pfx version v else change_dict_values pfx version v)
        :: change_dict_values_entries pfx version rest

def change_dict_values_list (pfx version : String) : List JValue → List JValue
  | [] => []
  | v :: rest => change_dict_values pfx version v :: change_dict_values_list pfx version rest

end

mutual

/-- Modelled from the spec: `additional_properties` from the repository's
`util` module (not among the provided sources) — the Strictness
Transformer of spec §4.4.  Every sub-node that declares a `properties`
field and does not already declare `additionalProperties` receives
`additionalProperties: false`; a node that already specifies it is left
untouched at that node while its descendants are still processed. -/
def additional_properties : JValue → JValue
  | .obj es =>
      if hasKey es "properties" && !hasKey es "additionalProperties" then
        .obj (additional_properties_entries es ++ [("additionalProperties", .bool false)])
      else
        .obj (additional_properties_entries es)
  | .arr xs => .arr (additional_properties_list xs)
  | v => v

def additional_properties_entries : List (String × JValue) → List (String × JValue)
  | [] => []
  | (k, v) :: rest => (k, additional_properties v) :: additional_properties_entries rest

def additional_properties_list : List JValue → List JValue
  | [] => []
  | v :: rest => additional_properties v :: additional_properties_list rest

end

mutual

/-- Modelled from the spec: `replace_int_or_string` from the repository's
`util` module (not among the provided sources) — spec §4.3 step 3.  Any
node carrying Kubernetes' int-or-string marker (`format: int-or-string`)
is normalized to `{oneOf: [{type: string}, {type: integer}]}`; the
traversal recurses through nested structures without altering unrelated
properties. -/
def replace_int_or_string : JValue → JValue
  | .obj es =>
      match lookupEntries es "format" with
      | some (.str "int-or-string") => intOrStringSchema
      | _ => .obj (replace_int_or_string_entries es)
  | .arr xs => .arr (replace_int_or_string_list xs)
  | v => v

def replace_int_or_string_entries : List (String × JValue) → List (String × JValue)
  | [] => []
  | (k, v) :: rest => (k, replace_int_or_string v) :: replace_int_or_string_entries rest

def replace_int_or_string_list : List JValue → List JValue
  | [] => []
  | v :: rest => replace_int_or_string v :: replace_int_or_string_list rest

end

mutual

/-- Modelled from the spec: `allow_null_optional_fields` from the
repository's `util` module (not among the provided sources) — spec §4.3
step 4, which relaxes fields "to additionally accept a null value (union
with null)", recursing through nested structures.  The per-type call
receives only the `properties` subtree, so the optional/required
distinction is not observable in the spec's description of this call;
the model relaxes every declared scalar `type` to a union with null.
No claim depends on the output of this stage. -/
def allow_null_optional_fields : JValue → JValue
  | .obj es => .obj (allow_null_optional_fields_entries es)
  | .arr xs => .arr (allow_null_optional_fields_list xs)
  | v => v

def allow_null_optional_fields_entries : List (String × JValue) → List (String × JValue)
  | [] => []
  | (k, v) :: rest =>
      (k, if k = "type" then
            match v with
            | .str t => .arr [.str t, .str "null"]
            | v' => v'
          else allow_null_optional_fields v) :: allow_null_optional_fields_entries rest

def allow_null_optional_fields_list : List JValue → List JValue
  | [] => []
  | v :: rest => allow_null_optional_fields v :: allow_null_optional_fields_list rest

end

/-- The `$schema` value set on every processed type (command.py
line 120). -/
def schemaFieldValue : String := "http://json-schema.org/schema#"

/-- The deny-list of Kind names rejected in Kubernetes + stand-alone
mode (command.py lines 147-157; the source repeats
`customresourcedefinitionspec`, which the model preserves). -/
def unsupportedKinds : List String :=
  ["jsonschemaprops", "jsonschemapropsorarray", "customresourcevalidation",
   "customresourcedefinition", "customresourcedefinitionspec",
   "customresourcedefinitionlist", "customresourcedefinitionspec",
   "jsonschemapropsorstringarray", "jsonschemapropsorbool"]

/-- Outcome of the loop body for one `(title, specification)` pair:
`spec` is the state of the type's definition in the components container
after the iteration (the in-place mutations of command.py lines
120-124), `emitted` records the `types.append(title)` of line 126,
`write` the individual schema file handed to the persistence
collaborator, and `err` the per-type error log line, if any. -/
structure TypeOutcome where
  spec : JValue
  emitted : Option String
  write : Option (String × JValue)
  err : Option String

/-- The in-place mutations applied to a type definition before the
`try` block (command.py lines 120-124): set `$schema`, default `type`
to `object`, and in strict mode set `additionalProperties: false`. -/
def mutateSpec (cfg : Config) (spec : JValue) : JValue :=
  let s := (spec.set "$schema" (.str schemaFieldValue)).setdefault "type" (.str "object")
  if cfg.strict then s.set "additionalProperties" (.bool false) else s

/-- The body of the `try` block (command.py lines 128-181): the
deprecated-namespace filter (evaluating `title_splitted[3]` first, which
raises `IndexError` on names with fewer than 4 segments), the
known-unsupported-Kind deny-list, reference rewriting, optional
dereferencing through the external collaborator `deref`, and the
properties-subtree transformations.  Any error is caught by the caller
and turned into a per-type error. -/
def tryProcess (cfg : Config) (version : String) (deref : JValue → Except String JValue)
    (title : String) (splitted : List String) (kind : String) (props₀ : Option JValue)
    (spec₁ : JValue) : Except String JValue := do
  if cfg.kubernetes && decide (splitted.length < 4) then
    Except.error "list index out of range"
  else if cfg.kubernetes && (splitted.getD 3 "" == "pkg") && (splitted.getD 2 "" == "kubernetes") then
    Except.error (title ++ " not currently supported, due to use of pkg namespace")
  else if cfg.kubernetes && cfg.stand_alone && unsupportedKinds.contains (lowerStr kind) then
    Except.error (kind ++ " not currently supported")
  else do
    let spec₂ := change_dict_values cfg.pfx version spec₁
    let spec₃ ← if cfg.stand_alone then deref spec₂ else pure spec₂
    if truthyOpt props₀ then
      match spec₃.lookup "properties" with
      | none => Except.error "KeyError: properties"
      | some p =>
        let p := if cfg.strict then additional_properties p else p
        let p := if cfg.kubernetes then allow_null_optional_fields (replace_int_or_string p) else p
        pure (spec₃.set "properties" p)
    else pure spec₃

/-- The top-level-only filter condition (command.py lines 97-102): in
Kubernetes mode with `only_top_level`, a type with a truthy `properties`
value missing at least one of the `kind` and `apiVersion` keys is
silently skipped. -/
def topLevelSkip (cfg : Config) (props₀ : Option JValue) : Bool :=
  cfg.kubernetes && cfg.only_top_level && truthyOpt props₀ &&
    !(optContains props₀ "kind" && optContains props₀ "apiVersion")

/-- The failed group/apiVersion extraction condition (command.py lines
107-113): in expanded Kubernetes mode a name with fewer than 3
dot-delimited segments raises `IndexError` at `title_splitted[-3]`,
which is caught locally, logged, and `continue`s the loop. -/
def expandFailure (cfg : Config) (title : String) : Bool :=
  cfg.kubernetes && cfg.expanded && decide ((splitDot title).length < 3)

/-- The expanded output filename (command.py lines 104-118). -/
def fullName (cfg : Config) (title : String) : String :=
  let splitted := splitDot title
  let kind := splitted.getLastD ""
  if cfg.kubernetes && cfg.expanded then
    let group := lowerStr (splitted.getD (splitted.length - 3) "")
    let api_version := lowerStr (splitted.getD (splitted.length - 2) "")
    if group == "core" || group == "api" then kind ++ "-" ++ api_version
    else kind ++ "-" ++ group ++ "-" ++ api_version
  else kind

/-- One iteration of the per-type loop (command.py lines 95-183).  The
only fatal outcome is a non-mapping type definition (Python would raise
an uncaught `AttributeError` at `specification.get`); everything inside
the `try` block becomes a logged per-type error. -/
def processType (cfg : Config) (version : String) (deref : JValue → Except String JValue)
    (title : String) (spec : JValue) : Except String TypeOutcome :=
  match spec with
  | .obj es =>
    let props₀ := lookupEntries es "properties"
    if topLevelSkip cfg props₀ then
      .ok ⟨spec, none, none, none⟩
    else
      let splitted := splitDot title
      let kind := splitted.getLastD ""
      if expandFailure cfg title then
        .ok ⟨spec, none, none, some ("unable to determine group and apiversion from " ++ title)⟩
      else
        let full_name := fullName cfg title
        let spec₁ := mutateSpec cfg spec
        match tryProcess cfg version deref title splitted kind props₀ spec₁ with
        | .ok outSpec =>
            .ok ⟨spec₁, some title, some (full_name ++ ".json", outSpec), none⟩
        | .error e =>
            .ok ⟨spec₁, some title, none,
                 some ("An error occured processing " ++ kind ++ ": " ++ e)⟩
  | _ => .error "AttributeError: specification is not a mapping"

/-- Accumulated state of the per-type loop, all lists in iteration
(container insertion) order. -/
structure LoopAcc where
  types : List String
  writes : List (String × JValue)
  errors : List String
  comps : List (String × JValue)

/-- The per-type loop over the components container. -/
def runLoop (cfg : Config) (version : String) (deref : JValue → Except String JValue) :
    List (String × JValue) → Except String LoopAcc
  | [] => .ok ⟨[], [], [], []⟩
  | (title, spec) :: rest => do
      let out ← processType cfg version deref title spec
      let acc ← runLoop cfg version deref rest
      .ok ⟨out.emitted.toList ++ acc.types,
           out.write.toList ++ acc.writes,
           out.err.toList ++ acc.errors,
           (title, out.spec) :: acc.comps⟩

/-- One `$ref` entry of the aggregate index (command.py lines 187-193):
pre-3.0 uses `{prefix}#/definitions/{title}`, 3.0+ strips the
`#/components/schemas/` prefix from the title and appends `.json`. -/
def refEntry (version pfx title : String) : JValue :=
  if strLt version "3" then .obj [("$ref", .str (pfx ++ "#/definitions/" ++ title))]
  else .obj [("$ref", .str (strReplace title "#/components/schemas/" "" ++ ".json"))]

/-- `data.get("swagger") or data.get("openapi")` (command.py line 38). -/
def getVersionVal (data : JValue) : Option JValue :=
  match data.lookup "swagger" with
  | some v => if v.truthy then some v else data.lookup "openapi"
  | none => data.lookup "openapi"

/-- Components container extraction (command.py lines 46-49):
`data["definitions"]` before 3.0, `data["components"]["schemas"]` from
3.0 on; missing keys raise `KeyError` (fatal), and the container must be
a mapping for the later `.items()` iterations. -/
def getComponents (version : String) (dataEs : List (String × JValue)) :
    Except String (List (String × JValue)) :=
  if strLt version "3" then
    match lookupEntries dataEs "definitions" with
    | some (.obj l) => .ok l
    | some _ => .error "AttributeError: definitions is not a mapping"
    | none => .error "KeyError: definitions"
  else
    match lookupEntries dataEs "components" with
    | some c =>
      match c.lookup "schemas" with
      | some (.obj l) => .ok l
      | some _ => .error "AttributeError: schemas is not a mapping"
      | none => .error "KeyError: schemas"
    | none => .error "KeyError: components"

/-- The observable result of a `process` run: the ordered
`(filename, document)` pairs handed to the persistence collaborator, the
error log, the emitted-types list, and the final state of the components
container after all in-place mutation. -/
structure ProcessResult where
  writes : List (String × JValue)
  errors : List String
  types : List String
  comps : List (String × JValue)

/-- The rest of `process` once the version string and the components
container have been extracted: pre-3.0 Kubernetes container enrichment,
pre-3.0 strict-mode container transformation, the pre-3.0 shared
definitions write, the per-type loop, and the aggregate index write —
in that order. -/
def processCore (cfg : Config) (deref : JValue → Except String JValue) (version : String)
    (comps₀ : List (String × JValue)) : Except String ProcessResult :=
  (if strLt version "3" && cfg.kubernetes then enrichComponents comps₀ else .ok (comps₀, [])).bind
    fun p =>
      let comps₁ := p.1
      let enrichErrs := p.2
      (if strLt version "3" && cfg.strict then
        match additional_properties (.obj comps₁) with
        | .obj l => Except.ok l
        | _ => Except.error "unreachable: additional_properties preserves mappings"
      else .ok comps₁).bind
        fun comps₂ =>
          (runLoop cfg version deref comps₂).map fun (acc : LoopAcc) =>
            let defsWrites :=
              if strLt version "3" then
                [("_definitions.json", JValue.obj [("definitions", JValue.obj comps₂)])]
              else []
            let allDoc :=
              JValue.obj [("oneOf", JValue.arr (acc.types.map (refEntry version cfg.pfx)))]
            ⟨defsWrites ++ acc.writes ++ [("all.json", allDoc)],
             enrichErrs ++ acc.errors, acc.types, acc.comps⟩

/-- The `process` function of command.py (lines 25-195), as a pure
function from the parsed document, the configuration and the external
dereferencing collaborator (`jsonref.JsonRef.replace_refs`, out of
scope per spec §1) to its observable effects.  Fatal conditions (missing
version marker, missing or non-mapping containers) are `Except.error`. -/
def process (cfg : Config) (deref : JValue → Except String JValue) (data : JValue) :
    Except String ProcessResult :=
  match data with
  | .obj dataEs =>
    match getVersionVal (.obj dataEs) with
    | some ver =>
      if ver.truthy then
        match ver with
        | .str v => (getComponents v dataEs).bind (processCore cfg deref v)
        | _ => .error "TypeError: version is not comparable to a string"
      else
        .error "cannot convert data to JSON because we could not find 'openapi' or 'swagger' keys"
    | none =>
        .error "cannot convert data to JSON because we could not find 'openapi' or 'swagger' keys"
  | _ => .error "AttributeError: data is not a mapping"

theorem lookupEntries_setEntries_self (es : List (String × JValue)) (k : String) (v : JValue) :
    lookupEntries (setEntries es k v) k = some v := by
  induction es with
  | nil => simp [setEntries, lookupEntries]
  | cons hd t ih =>
      obtain ⟨k', v'⟩ := hd
      by_cases hk : k' = k <;> simp [setEntries, lookupEntries, hk, ih]

theorem lookupEntries_setEntries_ne (es : List (String × JValue)) (k k' : String) (v : JValue)
    (h : k' ≠ k) : lookupEntries (setEntries es k v) k' = lookupEntries es k' := by
  induction es with
  | nil => simp [setEntries, lookupEntries, Ne.symm h]
  | cons hd t ih =>
      obtain ⟨k₀, v₀⟩ := hd
      by_cases hk : k₀ = k
      · subst hk
        simp [setEntries, lookupEntries, Ne.symm h]
      · simp [setEntries, lookupEntries, hk, ih]

theorem lookup_set_self (es : List (String × JValue)) (k : String) (v : JValue) :
    ((JValue.obj es).set k v).lookup k = some v := by
  simp [JValue.set, JValue.lookup, lookupEntries_setEntries_self]

theorem lookup_set_ne (es : List (String × JValue)) (k k' : String) (v : JValue) (h : k' ≠ k) :
    ((JValue.obj es).set k v).lookup k' = lookupEntries es k' := by
  simp [JValue.set, JValue.lookup, lookupEntries_setEntries_ne _ _ _ _ h]

/-- The entries-level effect of Python `d.setdefault`. -/
def setdefaultEntries (es : List (String × JValue)) (k : String) (d : JValue) :
    List (String × JValue) :=
  match lookupEntries es k with
  | some _ => es
  | none => setEntries es k d

theorem setdefault_obj (es : List (String × JValue)) (k : String) (d : JValue) :
    (JValue.obj es).setdefault k d = .obj (setdefaultEntries es k d) := by
  unfold JValue.setdefault setdefaultEntries
  rcases h : lookupEntries es k with _ | t <;> simp [JValue.lookup, JValue.set, h]

theorem lookupEntries_setdefaultEntries_self (es : List (String × JValue)) (k : String)
    (d : JValue) :
    lookupEntries (setdefaultEntries es k d) k = some ((lookupEntries es k).getD d) := by
  unfold setdefaultEntries
  rcases h : lookupEntries es k with _ | t
  · simp [lookupEntries_setEntries_self]
  · simp [h]

theorem lookupEntries_setdefaultEntries_ne (es : List (String × JValue)) (k k' : String)
    (d : JValue) (h : k' ≠ k) :
    lookupEntries (setdefaultEntries es k d) k' = lookupEntries es k' := by
  unfold setdefaultEntries
  rcases h0 : lookupEntries es k with _ | t
  · simp [lookupEntries_setEntries_ne _ _ _ _ h]
  · rfl

/-- The entries-level form of the pre-`try` in-place mutations of
command.py lines 120-124. -/
def mutateEntries (cfg : Config) (es : List (String × JValue)) : List (String × JValue) :=
  let e1 := setEntries es "$schema" (.str schemaFieldValue)
  let e2 := setdefaultEntries e1 "type" (.str "object")
  if cfg.strict then setEntries e2 "additionalProperties" (.bool false) else e2

theorem mutateSpec_eq_obj (cfg : Config) (es : List (String × JValue)) :
    mutateSpec cfg (.obj es) = .obj (mutateEntries cfg es) := by
  unfold mutateSpec mutateEntries
  rw [show (JValue.obj es).set "$schema" (.str schemaFieldValue) =
        .obj (setEntries es "$schema" (.str schemaFieldValue)) from rfl,
      setdefault_obj]
  rcases hs : cfg.strict with _ | _ <;> simp [JValue.set]

theorem mutateEntries_lookup_schema (cfg : Config) (es : List (String × JValue)) :
    lookupEntries (mutateEntries cfg es) "$schema" = some (.str schemaFieldValue) := by
  unfold mutateEntries
  have base : lookupEntries
      (setdefaultEntries (setEntries es "$schema" (.str schemaFieldValue)) "type"
        (.str "object")) "$schema" = some (.str schemaFieldValue) := by
    rw [lookupEntries_setdefaultEntries_ne _ _ _ _ (by decide),
        lookupEntries_setEntries_self]
  rcases hs : cfg.strict with _ | _
  · simpa [hs] using base
  · simpa [hs, lookupEntries_setEntries_ne _ _ _ _
      (by decide : "$schema" ≠ "additionalProperties")] using base

theorem mutateEntries_lookup_type (cfg : Config) (es : List (String × JValue)) :
    lookupEntries (mutateEntries cfg es) "type" =
      some ((lookupEntries es "type").getD (.str "object")) := by
  unfold mutateEntries
  have base : lookupEntries
      (setdefaultEntries (setEntries es "$schema" (.str schemaFieldValue)) "type"
        (.str "object")) "type" = some ((lookupEntries es "type").getD (.str "object")) := by
    rw [lookupEntries_setdefaultEntries_self,
        lookupEntries_setEntries_ne _ _ _ _ (by decide : "type" ≠ "$schema")]
  rcases hs : cfg.strict with _ | _
  · simpa [hs] using base
  · simpa [hs, lookupEntries_setEntries_ne _ _ _ _
      (by decide : "type" ≠ "additionalProperties")] using base

theorem mutateEntries_lookup_strict (cfg : Config) (es : List (String × JValue))
    (hs : cfg.strict = true) :
    lookupEntries (mutateEntries cfg es) "additionalProperties" = some (.bool false) := by
  unfold mutateEntries
  simp [hs, lookupEntries_setEntries_self]

theorem mutateEntries_lookup_other (cfg : Config) (es : List (String × JValue)) (k : String)
    (h1 : k ≠ "$schema") (h2 : k ≠ "type") (h3 : k ≠ "additionalProperties") :
    lookupEntries (mutateEntries cfg es) k = lookupEntries es k := by
  unfold mutateEntries
  have base : lookupEntries
      (setdefaultEntries (setEntries es "$schema" (.str schemaFieldValue)) "type"
        (.str "object")) k = lookupEntries es k := by
    rw [lookupEntries_setdefaultEntries_ne _ _ _ _ h2,
        lookupEntries_setEntries_ne _ _ _ _ h1]
  rcases hs : cfg.strict with _ | _
  · simpa [hs] using base
  · simpa [hs, lookupEntries_setEntries_ne _ _ _ _ h3] using base

theorem except_bind_ok {ε α β : Type} (x : α) (f : α → Except ε β) :
    (Except.ok x : Except ε α) >>= f = f x := rfl

theorem except_bind_error {ε α β : Type} (e : ε) (f : α → Except ε β) :
    (Except.error e : Except ε α) >>= f = Except.error e := rfl

theorem lookupEntries_cdv_entries (pfx version : String) (es : List (String × JValue))
    (k : String) :
    lookupEntries (change_dict_values_entries pfx version es) k =
      (lookupEntries es k).map
        (fun x =>
          if k = "$ref" then rewriteRefValue pfx version x else change_dict_values pfx version x) := by
  induction es with
  | nil => simp [change_dict_values_entries, lookupEntries]
  | cons hd t ih =>
      obtain ⟨k0, v0⟩ := hd
      by_cases h : k0 = k
      · subst h
        simp [change_dict_values_entries, lookupEntries]
      · simp [change_dict_values_entries, lookupEntries, h, ih]

/-- A type that reaches the emission point has the pre-`try` mutations
as its container entry and is recorded under its own qualified name. -/
theorem processType_not_skipped (cfg : Config) (version : String)
    (deref : JValue → Except String JValue) (title : String) (es : List (String × JValue))
    (out : TypeOutcome)
    (hout : processType cfg version deref title (.obj es) = .ok out)
    (hemit : out.emitted.isSome) :
    out.spec = mutateSpec cfg (.obj es) ∧ out.emitted = some title := by
  simp only [processType] at hout
  split at hout
  · simp only [Except.ok.injEq] at hout
    subst hout
    simp at hemit
  · split at hout
    · simp only [Except.ok.injEq] at hout
      subst hout
      simp at hemit
    · split at hout <;>
        (simp only [Except.ok.injEq] at hout; subst hout; exact ⟨rfl, rfl⟩)

/-- A type whose `try` block failed (or whose expansion failed) gets no
individual schema file. -/
theorem processType_err_no_write (cfg : Config) (version : String)
    (deref : JValue → Except String JValue) (title : String) (es : List (String × JValue))
    (out : TypeOutcome)
    (hout : processType cfg version deref title (.obj es) = .ok out)
    (herr : out.err.isSome) :
    out.write = none := by
  simp only [processType] at hout
  split at hout
  · simp only [Except.ok.injEq] at hout
    subst hout
    simp at herr
  · split at hout
    · simp only [Except.ok.injEq] at hout
      subst hout
      rfl
    · split at hout <;> simp only [Except.ok.injEq] at hout <;> subst hout
      · simp at herr
      · rfl

/-- Whether a type is recorded in the emitted list is decided entirely
by the top-level-only filter and the expansion-failure check — before
the `try` block runs. -/
theorem processType_emitted_eq (cfg : Config) (version : String)
    (deref : JValue → Except String JValue) (title : String) (es : List (String × JValue))
    (out : TypeOutcome)
    (hout : processType cfg version deref title (.obj es) = .ok out) :
    out.emitted =
      if topLevelSkip cfg (lookupEntries es "properties") || expandFailure cfg title then none
      else some title := by
  simp only [processType] at hout
  split at hout
  · next h =>
      simp only [Except.ok.injEq] at hout
      subst hout
      simp [h]
  · next h =>
      split at hout
      · next h2 =>
          simp only [Except.ok.injEq] at hout
          subst hout
          simp [h2]
      · next h2 =>
          split at hout <;> simp only [Except.ok.injEq] at hout <;> subst hout <;>
            simp_all

/-- Outside Kubernetes/stand-alone mode the per-type pipeline cannot
fail: every type is emitted and written under `<Kind>.json`. -/
theorem processType_success (cfg : Config) (version : String)
    (deref : JValue → Except String JValue) (title : String) (es : List (String × JValue))
    (hk : cfg.kubernetes = false) (hsa : cfg.stand_alone = false) :
    ∃ doc, processType cfg version deref title (.obj es) =
      .ok ⟨mutateSpec cfg (.obj es), some title, some (lastSeg title ++ ".json", doc), none⟩ := by
  have hskip : topLevelSkip cfg (lookupEntries es "properties") = false := by
    simp [topLevelSkip, hk]
  have hef : expandFailure cfg title = false := by
    simp [expandFailure, hk]
  have hfn : fullName cfg title = (splitDot title).getLastD "" := by
    simp [fullName, hk]
  obtain ⟨doc, hdoc⟩ : ∃ doc,
      tryProcess cfg version deref title (splitDot title) ((splitDot title).getLastD "")
        (lookupEntries es "properties") (mutateSpec cfg (.obj es)) = .ok doc := by
    unfold tryProcess
    simp only [hk, hsa, Bool.false_and, Bool.and_false, if_neg, ite_false,
      Bool.false_eq_true, not_false_eq_true]
    rcases htr : truthyOpt (lookupEntries es "properties") with _ | _
    · refine ⟨change_dict_values cfg.pfx version (mutateSpec cfg (.obj es)), ?_⟩
      simp only [htr, Bool.false_eq_true, if_neg, ite_false, not_false_eq_true]
      rfl
    · obtain ⟨p, hp⟩ : ∃ p, lookupEntries es "properties" = some p := by
        rcases h0 : lookupEntries es "properties" with _ | p
        · rw [h0] at htr
          simp [truthyOpt] at htr
        · exact ⟨p, rfl⟩
      have hl : (change_dict_values cfg.pfx version (mutateSpec cfg (.obj es))).lookup
          "properties" = some (change_dict_values cfg.pfx version p) := by
        rw [mutateSpec_eq_obj]
        rw [show change_dict_values cfg.pfx version (.obj (mutateEntries cfg es)) =
              .obj (change_dict_values_entries cfg.pfx version (mutateEntries cfg es)) from by
            simp [change_dict_values]]
        show lookupEntries (change_dict_values_entries cfg.pfx version (mutateEntries cfg es))
            "properties" = _
        rw [lookupEntries_cdv_entries]
        rw [mutateEntries_lookup_other cfg es "properties" (by decide) (by decide) (by decide)]
        simp [hp]
      refine ⟨(change_dict_values cfg.pfx version (mutateSpec cfg (.obj es))).set "properties"
        (if cfg.strict then
          additional_properties (change_dict_values cfg.pfx version p)
        else change_dict_values cfg.pfx version p), ?_⟩
      simp [htr, except_bind_ok, hl, hk]
      rfl
  refine ⟨doc, ?_⟩
  simp only [processType]
  simp only [hskip, Bool.false_eq_true, if_neg, ite_false, hef, not_false_eq_true, hfn, hdoc]
  rfl

theorem runLoop_nil (cfg : Config) (version : String) (deref : JValue → Except String JValue) :
    runLoop cfg version deref [] = .ok ⟨[], [], [], []⟩ := rfl

theorem runLoop_cons (cfg : Config) (version : String) (deref : JValue → Except String JValue)
    (title : String) (spec : JValue) (rest : List (String × JValue)) :
    runLoop cfg version deref ((title, spec) :: rest) =
      (processType cfg version deref title spec) >>= fun out =>
        (runLoop cfg version deref rest) >>= fun acc =>
          .ok ⟨out.emitted.toList ++ acc.types, out.write.toList ++ acc.writes,
               out.err.toList ++ acc.errors, (title, out.spec) :: acc.comps⟩ := rfl

/-- After the loop, the components container maps every qualified name
(unique among the container's keys) to the `spec` component of that
type's loop outcome — the definition as mutated in place. -/
theorem runLoop_comps_lookup (cfg : Config) (version : String)
    (deref : JValue → Except String JValue) :
    ∀ (entries : List (String × JValue)) (acc : LoopAcc),
      runLoop cfg version deref entries = .ok acc →
      (entries.map Prod.fst).Nodup →
      ∀ (title : String) (s : JValue) (out : TypeOutcome),
        (title, s) ∈ entries →
        processType cfg version deref title s = .ok out →
        lookupEntries acc.comps title = some out.spec := by
  intro entries
  induction entries with
  | nil =>
      intro acc _ _ title s out hmem _
      simp at hmem
  | cons hd t ih =>
      obtain ⟨t₀, s₀⟩ := hd
      intro acc hloop hnd title s out hmem hout
      rw [runLoop_cons] at hloop
      rcases h₀ : processType cfg version deref t₀ s₀ with e₀ | o₀
      · rw [h₀, except_bind_error] at hloop
        simp at hloop
      · rw [h₀, except_bind_ok] at hloop
        rcases hrec : runLoop cfg version deref t with e₁ | acc'
        · rw [hrec, except_bind_error] at hloop
          simp at hloop
        · rw [hrec, except_bind_ok] at hloop
          simp only [Except.ok.injEq] at hloop
          subst hloop
          rcases List.mem_cons.mp hmem with heq | hmem'
          · injection heq with ht hs
            subst ht
            subst hs
            rw [h₀] at hout
            simp only [Except.ok.injEq] at hout
            subst hout
            simp [lookupEntries]
          · simp only [List.map_cons, List.nodup_cons] at hnd
            have hne : t₀ ≠ title := by
              intro hcontra
              subst hcontra
              exact hnd.1 (List.mem_map_of_mem Prod.fst hmem')
            simp only [lookupEntries, if_neg hne]
            exact ih acc' hrec hnd.2 title s out hmem' hout

theorem gvkEnrichEntries_nil : gvkEnrichEntries [] = .ok ([], []) := rfl

theorem gvkEnrichEntries_cons (n : String) (d : JValue) (rest : List (String × JValue)) :
    gvkEnrichEntries ((n, d) :: rest) =
      (enrichEntry n d) >>= fun p =>
        (gvkEnrichEntries rest) >>= fun q =>
          .ok ((n, p.1) :: q.1, p.2 ++ q.2) := rfl

/-- A successful container-level GVK pass maps each name (at its first
occurrence) to the enrichment of its prior definition. -/
theorem gvkEnrichEntries_lookup :
    ∀ (es es' : List (String × JValue)) (errs : List String),
      gvkEnrichEntries es = .ok (es', errs) →
      ∀ (name : String) (d d' : JValue) (e : List String),
        lookupEntries es name = some d →
        enrichEntry name d = .ok (d', e) →
        lookupEntries es' name = some d' := by
  intro es
  induction es with
  | nil =>
      intro es' errs _ name d d' e hl _
      simp [lookupEntries] at hl
  | cons hd t ih =>
      obtain ⟨n₀, d₀⟩ := hd
      intro es' errs h name d d' e hl he
      rw [gvkEnrichEntries_cons] at h
      rcases h₀ : enrichEntry n₀ d₀ with e₀ | p₀
      · rw [h₀, except_bind_error] at h
        simp at h
      · obtain ⟨d₀', errs₀⟩ := p₀
        rw [h₀, except_bind_ok] at h
        rcases hrec : gvkEnrichEntries t with e₁ | p₁
        · rw [hrec, except_bind_error] at h
          simp at h
        · obtain ⟨t', errs₁⟩ := p₁
          rw [hrec, except_bind_ok] at h
          simp only [Except.ok.injEq, Prod.mk.injEq] at h
          obtain ⟨h1, _⟩ := h
          subst h1
          by_cases hn : n₀ = name
          · subst hn
            rw [lookupEntries, if_pos rfl] at hl
            simp only [Option.some.injEq] at hl
            subst hl
            rw [h₀] at he
            simp only [Except.ok.injEq, Prod.mk.injEq] at he
            obtain ⟨he1, _⟩ := he
            subst he1
            simp [lookupEntries]
          · rw [lookupEntries, if_neg hn] at hl
            rw [lookupEntries, if_neg hn]
            exact ih t' errs₁ hrec name d d' e hl he

theorem except_pure_bind {ε α β : Type} (x : α) (f : α → Except ε β) :
    (pure x : Except ε α) >>= f = f x := rfl

theorem Except_bind_ok_raw {ε α β : Type} (x : α) (f : α → Except ε β) :
    Except.bind (Except.ok x : Except ε α) f = f x := rfl

theorem Except_bind_error_raw {ε α β : Type} (e : ε) (f : α → Except ε β) :
    Except.bind (Except.error e : Except ε α) f = Except.error e := rfl

/-- The value appended to an `apiVersion` enum, in closed form: the bare
version when the group is empty, the bare group when the version is
empty, `group/version` when both are non-empty. -/
theorem apiVersionEnumValue_eq (g v : String) :
    apiVersionEnumValue g v =
      if g = "" then v else if v = "" then g else g ++ "/" ++ v := by
  by_cases hg : g = "" <;> by_cases hv : v = "" <;>
    simp [apiVersionEnumValue, joinStr, hg, hv]

theorem joinGV_str (g v : String) :
    joinGV (.str g) (.str v) = .ok (apiVersionEnumValue g v) := by
  by_cases hg : g = "" <;> by_cases hv : v = "" <;>
    simp [joinGV, apiVersionEnumValue, JValue.truthy, hg, hv, expectStrs, except_bind_ok,
      Except.map, pure, Except.pure]

/-- A pre-3.0 run's `_definitions.json` write is the head of the write
sequence whenever `processCore` succeeds. -/
theorem processCore_pre3_writes_head (cfg : Config) (deref : JValue → Except String JValue)
    (version : String) (comps₀ : List (String × JValue)) (res : ProcessResult)
    (hv : strLt version "3" = true)
    (h : processCore cfg deref version comps₀ = .ok res) :
    ∃ compsFinal rest,
      res.writes = ("_definitions.json", .obj [("definitions", .obj compsFinal)]) :: rest := by
  unfold processCore at h
  rcases he : (if strLt version "3" && cfg.kubernetes then enrichComponents comps₀
      else .ok (comps₀, [])) with e | p
  · rw [he, Except_bind_error_raw] at h
    simp at h
  · obtain ⟨comps₁, enrichErrs⟩ := p
    rw [he, Except_bind_ok_raw] at h
    dsimp only at h
    rcases hs : (if strLt version "3" && cfg.strict then
        match additional_properties (.obj comps₁) with
        | .obj l => Except.ok l
        | _ => Except.error "unreachable: additional_properties preserves mappings"
      else .ok comps₁) with e | comps₂
    · rw [hs, Except_bind_error_raw] at h
      simp at h
    · rw [hs, Except_bind_ok_raw] at h
      rcases hl : runLoop cfg version deref comps₂ with e | acc
      · rw [hl] at h
        simp [Except.map] at h
      · rw [hl] at h
        simp only [Except.map, Except.ok.injEq] at h
        subst h
        refine ⟨comps₂, acc.writes ++ [("all.json",
          JValue.obj [("oneOf", JValue.arr (acc.types.map (refEntry version cfg.pfx)))])], ?_⟩
        simp [hv]

/-- An identity dereferencing collaborator, used to instantiate the
`deref` parameter in concrete runs (it is never invoked unless
stand-alone mode is on). -/
def derefOk : JValue → Except String JValue := fun v => .ok v

/-- Kubernetes mode, all other flags off. -/
def cfgK : Config := ⟨"_definitions.json", false, false, true, false, false⟩

/-- Kubernetes mode with expansion, all other flags off. -/
def cfgKE : Config := ⟨"_definitions.json", false, true, true, false, false⟩

/-- C1, counterexample.  The claim says a type rejected by the
deprecated-namespace filter is excluded from the aggregate index.  On a
3.0 Kubernetes-mode run whose only type `x.y.kubernetes.pkg.v1.Foo` is
rejected by that filter (see the error log entry), no individual file is
written, yet `all.json` still carries the type's `$ref` entry and the
emitted-types list still contains it: `types.append(title)` at
command.py line 126 runs before the `try` block that hosts the filter. -/
theorem c1_counterexample :
    process cfgK derefOk
        (.obj [("openapi", .str "3.0.0"),
               ("components", .obj [("schemas",
                 .obj [("x.y.kubernetes.pkg.v1.Foo", .obj [])])])]) =
      .ok ⟨[("all.json", .obj [("oneOf",
              .arr [.obj [("$ref", .str "x.y.kubernetes.pkg.v1.Foo.json")]])])],
           ["An error occured processing Foo: x.y.kubernetes.pkg.v1.Foo not currently supported, due to use of pkg namespace"],
           ["x.y.kubernetes.pkg.v1.Foo"],
           [("x.y.kubernetes.pkg.v1.Foo",
             .obj [("$schema", .str "http://json-schema.org/schema#"),
                   ("type", .str "object")])]⟩ := rfl

/-- C1, amended.  Membership in the emitted list (hence in the aggregate
index) is decided solely by the top-level-only filter and the expansion
failure check, both evaluated before the `try` block: a type rejected by
the deprecated-namespace filter or the deny-list (or any later rewriting
error) is still recorded in the emitted list, although its individual
schema file is not written (`out.write = none` when an error was
logged). -/
theorem c1_emitted_before_filters (cfg : Config) (version : String)
    (deref : JValue → Except String JValue) (title : String) (es : List (String × JValue))
    (out : TypeOutcome)
    (hout : processType cfg version deref title (.obj es) = .ok out) :
    out.emitted =
      (if topLevelSkip cfg (lookupEntries es "properties") || expandFailure cfg title then none
       else some title) ∧
    (out.err.isSome → out.write = none) :=
  ⟨processType_emitted_eq cfg version deref title es out hout,
   fun herr => processType_err_no_write cfg version deref title es out hout herr⟩

/-- The loop outcome for `a.b.kubernetes.pkg.v1.Bar` in Kubernetes mode:
rejected by the deprecated-namespace filter, no file written, but still
emitted. -/
def outBar : TypeOutcome :=
  ⟨.obj [("$schema", .str "http://json-schema.org/schema#"), ("type", .str "object")],
   some "a.b.kubernetes.pkg.v1.Bar", none,
   some "An error occured processing Bar: a.b.kubernetes.pkg.v1.Bar not currently supported, due to use of pkg namespace"⟩

theorem c1_emitted_before_filters_witness :
    processType cfgK "3.0.0" derefOk "a.b.kubernetes.pkg.v1.Bar" (.obj []) = .ok outBar ∧
    outBar.emitted =
      (if topLevelSkip cfgK (lookupEntries [] "properties") ||
          expandFailure cfgK "a.b.kubernetes.pkg.v1.Bar" then none
       else some "a.b.kubernetes.pkg.v1.Bar") ∧
    (outBar.err.isSome → outBar.write = none) :=
  ⟨rfl,
   (c1_emitted_before_filters cfgK "3.0.0" derefOk "a.b.kubernetes.pkg.v1.Bar" [] outBar rfl).1,
   (c1_emitted_before_filters cfgK "3.0.0" derefOk "a.b.kubernetes.pkg.v1.Bar" [] outBar rfl).2⟩

/-- C2, code bug.  For a 3.0 document in expanded Kubernetes mode, the
individual schema file for `io.k8s.api.core.v1.Pod` is written under the
expanded filename `Pod-v1.json`, but the aggregate index entry is
`io.k8s.api.core.v1.Pod.json` (the qualified name with the
`#/components/schemas/` prefix stripped, command.py line 192) — a
different name, so the index's `$ref` does not point at the file that
was written, contrary to the spec's "must use the same Filename". -/
theorem c2_code_bug :
    process cfgKE derefOk
        (.obj [("openapi", .str "3.0.0"),
               ("components", .obj [("schemas",
                 .obj [("io.k8s.api.core.v1.Pod", .obj [])])])]) =
      .ok ⟨[("Pod-v1.json",
             .obj [("$schema", .str "http://json-schema.org/schema#"),
                   ("type", .str "object")]),
            ("all.json", .obj [("oneOf",
              .arr [.obj [("$ref", .str "io.k8s.api.core.v1.Pod.json")]])])],
           [], ["io.k8s.api.core.v1.Pod"],
           [("io.k8s.api.core.v1.Pod",
             .obj [("$schema", .str "http://json-schema.org/schema#"),
                   ("type", .str "object")])]⟩ ∧
    ("io.k8s.api.core.v1.Pod.json" : String) ≠ "Pod-v1.json" :=
  ⟨rfl, by decide⟩

/-- C3, code bug.  In Kubernetes mode the deprecated-namespace filter
evaluates `title_splitted[3]` first (command.py line 134), so the
3-segment name `a.b.c` raises `IndexError` ("list index out of range").
The exception is caught by the per-type handler — the run does not
crash — but the type's schema file is NOT produced, contrary to the
claim that a short name is treated as "not deprecated" with its file
still written.  (The type still appears in the aggregate index, per the
C1 analysis.) -/
theorem c3_code_bug :
    process cfgK derefOk
        (.obj [("openapi", .str "3.0.0"),
               ("components", .obj [("schemas", .obj [("a.b.c", .obj [])])])]) =
      .ok ⟨[("all.json", .obj [("oneOf", .arr [.obj [("$ref", .str "a.b.c.json")]])])],
           ["An error occured processing c: list index out of range"],
           ["a.b.c"],
           [("a.b.c", .obj [("$schema", .str "http://json-schema.org/schema#"),
                            ("type", .str "object")])]⟩ := rfl

/-- C4.  Every type that reaches the emission point (i.e., is processed
past the filters of the loop head) has, in its in-place-mutated
definition, `$schema` set to the fixed meta-schema URI
`http://json-schema.org/schema#` and `type` equal to its pre-existing
value when one was present, else defaulted to `object` (command.py
lines 120-121). -/
theorem c4_schema_and_type_fields (cfg : Config) (version : String)
    (deref : JValue → Except String JValue) (title : String) (es : List (String × JValue))
    (out : TypeOutcome)
    (hout : processType cfg version deref title (.obj es) = .ok out)
    (hemit : out.emitted.isSome) :
    out.spec.lookup "$schema" = some (.str schemaFieldValue) ∧
    out.spec.lookup "type" = some ((lookupEntries es "type").getD (.str "object")) := by
  obtain ⟨hspec, _⟩ := processType_not_skipped cfg version deref title es out hout hemit
  rw [hspec, mutateSpec_eq_obj]
  constructor
  · show lookupEntries (mutateEntries cfg es) "$schema" = _
    exact mutateEntries_lookup_schema cfg es
  · show lookupEntries (mutateEntries cfg es) "type" = _
    exact mutateEntries_lookup_type cfg es

/-- All-flags-off configuration. -/
def cfg0 : Config := ⟨"_definitions.json", false, false, false, false, false⟩

/-- The loop outcome for a `Pet` type that already declares
`type: string`: `$schema` is added, the existing `type` is kept. -/
def outPet : TypeOutcome :=
  ⟨.obj [("type", .str "string"), ("$schema", .str "http://json-schema.org/schema#")],
   some "Pet",
   some ("Pet.json",
     .obj [("type", .str "string"), ("$schema", .str "http://json-schema.org/schema#")]),
   none⟩

theorem c4_schema_and_type_fields_witness :
    processType cfg0 "2.0" derefOk "Pet" (.obj [("type", .str "string")]) = .ok outPet ∧
    outPet.emitted.isSome = true ∧
    outPet.spec.lookup "$schema" = some (.str schemaFieldValue) ∧
    outPet.spec.lookup "type" =
      some ((lookupEntries [("type", .str "string")] "type").getD (.str "object")) :=
  ⟨rfl, rfl,
   (c4_schema_and_type_fields cfg0 "2.0" derefOk "Pet" [("type", .str "string")] outPet
     rfl rfl).1,
   (c4_schema_and_type_fields cfg0 "2.0" derefOk "Pet" [("type", .str "string")] outPet
     rfl rfl).2⟩

/-- Kubernetes mode with the top-level-only filter, all other flags
off. -/
def cfgKT : Config := ⟨"_definitions.json", false, false, true, false, true⟩

/-- C5, counterexample.  The claim says the top-level-only filter skips
exactly the types whose `properties` lacks BOTH `kind` and `apiVersion`.
This type's `properties` declares `kind` (so it does not lack both), yet
the loop silently skips it: the code's condition (command.py line 101)
is `not ("kind" in properties and "apiVersion" in properties)`, i.e. it
skips when at least one of the two is missing. -/
theorem c5_counterexample :
    processType cfgKT "3.0.0" derefOk "T"
        (.obj [("properties", .obj [("kind", .obj [])])]) =
      .ok ⟨.obj [("properties", .obj [("kind", .obj [])])], none, none, none⟩ ∧
    optContains (lookupEntries [("properties", .obj [("kind", .obj [])])] "properties")
      "kind" = true :=
  ⟨rfl, rfl⟩

/-- C5, amended.  With `kubernetes` and `only_top_level` on, the loop
silently skips (unchanged definition, not emitted, no write, no error)
exactly those types whose `properties` value is truthy (present and
non-empty) and misses at least one of the `kind` and `apiVersion` keys.
The `properties` value is restricted to the mapping shape (or absent),
which is what the data model prescribes and what Python supports without
raising at the `in` operator. -/
theorem c5_skip_condition (cfg : Config) (version : String)
    (deref : JValue → Except String JValue) (title : String) (es : List (String × JValue))
    (out : TypeOutcome)
    (hk : cfg.kubernetes = true) (ht : cfg.only_top_level = true)
    (_hmap : match lookupEntries es "properties" with
            | some (.obj _) => True
            | none => True
            | _ => False)
    (hout : processType cfg version deref title (.obj es) = .ok out) :
    out = ⟨.obj es, none, none, none⟩ ↔
      (truthyOpt (lookupEntries es "properties") = true ∧
       ¬(optContains (lookupEntries es "properties") "kind" = true ∧
         optContains (lookupEntries es "properties") "apiVersion" = true)) := by
  have hcond : topLevelSkip cfg (lookupEntries es "properties") = true ↔
      (truthyOpt (lookupEntries es "properties") = true ∧
       ¬(optContains (lookupEntries es "properties") "kind" = true ∧
         optContains (lookupEntries es "properties") "apiVersion" = true)) := by
    rcases hkind : optContains (lookupEntries es "properties") "kind" with _ | _ <;>
      rcases hapi : optContains (lookupEntries es "properties") "apiVersion" with _ | _ <;>
        simp [topLevelSkip, hk, ht, hkind, hapi]
  rcases hsk : topLevelSkip cfg (lookupEntries es "properties") with _ | _
  · rw [hsk] at hcond
    constructor
    · intro heq
      exfalso
      simp only [processType, hsk, Bool.false_eq_true, if_neg, ite_false,
        not_false_eq_true] at hout
      split at hout
      · simp only [Except.ok.injEq] at hout
        subst hout
        simp at heq
      · split at hout <;> simp only [Except.ok.injEq] at hout <;> subst hout <;> simp at heq
    · intro hrhs
      exact absurd (hcond.mpr hrhs) (by simp)
  · rw [hsk] at hcond
    constructor
    · intro _
      exact hcond.mp rfl
    · intro _
      simp only [processType, hsk, if_true, ite_true] at hout
      simp only [Except.ok.injEq] at hout
      exact hout.symm

theorem c5_skip_condition_witness :
    processType cfgKT "3.0.0" derefOk "U"
        (.obj [("properties", .obj [("apiVersion", .obj [])])]) =
      .ok ⟨.obj [("properties", .obj [("apiVersion", .obj [])])], none, none, none⟩ ∧
    cfgKT.kubernetes = true ∧ cfgKT.only_top_level = true ∧
    ((⟨.obj [("properties", .obj [("apiVersion", .obj [])])], none, none, none⟩ : TypeOutcome) =
        ⟨.obj [("properties", .obj [("apiVersion", .obj [])])], none, none, none⟩ ↔
      (truthyOpt (lookupEntries [("properties", .obj [("apiVersion", .obj [])])] "properties")
          = true ∧
       ¬(optContains (lookupEntries [("properties", .obj [("apiVersion", .obj [])])]
            "properties") "kind" = true ∧
         optContains (lookupEntries [("properties", .obj [("apiVersion", .obj [])])]
            "properties") "apiVersion" = true))) :=
  ⟨rfl, rfl, rfl,
   c5_skip_condition cfgKT "3.0.0" derefOk "U"
     [("properties", .obj [("apiVersion", .obj [])])] _ rfl rfl trivial rfl⟩

/-- C6, counterexample.  The claim says a non-empty group always yields
the enum value `"{group}/{version}"`.  For an extension entry with group
`"g"` and version `""` the code joins only the truthy components
(command.py lines 75-77), appending `"g"` — not `"g/"` as the claim's
format demands. -/
theorem c6_counterexample :
    enrichEntry "example.T"
        (.obj [("properties", .obj [("apiVersion", .obj []), ("kind", .obj [])]),
               ("x-kubernetes-group-version-kind",
                 .arr [.obj [("group", .str "g"), ("version", .str ""), ("kind", .str "K")]])]) =
      .ok (.obj [("properties",
                   .obj [("apiVersion", .obj [("enum", .arr [.str "g"])]),
                         ("kind", .obj [("enum", .arr [.str "K"])])]),
                 ("x-kubernetes-group-version-kind",
                   .arr [.obj [("group", .str "g"), ("version", .str ""), ("kind", .str "K")]])],
            []) ∧
    ("g" : String) ≠ "g" ++ "/" ++ "" :=
  ⟨rfl, by decide⟩

/-- C6, amended.  For one `x-kubernetes-group-version-kind` entry with
string-valued group and version, applied to a `properties` mapping that
declares both `apiVersion` and `kind`: the value appended (without
duplicates) to the `apiVersion` enum is the bare version when the group
is empty, `{group}/{version}` when both are non-empty, and the bare
group when the version is empty (empty components are dropped from the
join); the value appended to the `kind` enum is the entry's `kind`
value. -/
theorem c6_enum_values (props ext : JValue) (g v : String) (kv avDef kDef : JValue)
    (hav : props.lookup "apiVersion" = some avDef)
    (hkd : props.lookup "kind" = some kDef)
    (hg : ext.lookup "group" = some (.str g))
    (hv : ext.lookup "version" = some (.str v))
    (hkv : ext.lookup "kind" = some kv) :
    ∃ props', applyGVKExt props ext = .ok props' ∧
      props'.lookup "apiVersion" =
        some (append_no_duplicates avDef "enum" (.str (apiVersionEnumValue g v))) ∧
      props'.lookup "kind" = some (append_no_duplicates kDef "enum" kv) ∧
      apiVersionEnumValue g v =
        (if g = "" then v else if v = "" then g else g ++ "/" ++ v) := by
  obtain ⟨pes, rfl⟩ : ∃ pes, props = JValue.obj pes := by
    cases props
    case obj pes => exact ⟨pes, rfl⟩
    all_goals simp [JValue.lookup] at hav
  have hav' : lookupEntries pes "apiVersion" = some avDef := hav
  have hkd' : lookupEntries pes "kind" = some kDef := hkd
  have hhk : pyContains (JValue.obj pes) "apiVersion" = true := by
    simp [pyContains, hasKey, hav']
  refine ⟨((JValue.obj pes).set "apiVersion"
      (append_no_duplicates avDef "enum" (.str (apiVersionEnumValue g v)))).set "kind"
      (append_no_duplicates kDef "enum" kv), ?_, ?_, ?_, apiVersionEnumValue_eq g v⟩
  · have hk2 : pyContains ((JValue.obj pes).set "apiVersion"
        (append_no_duplicates avDef "enum" (.str (apiVersionEnumValue g v)))) "kind" = true := by
      simp [JValue.set, pyContains, hasKey,
        lookupEntries_setEntries_ne pes "apiVersion" "kind" _ (by decide), hkd']
    have hkd2 : ((JValue.obj pes).set "apiVersion"
        (append_no_duplicates avDef "enum" (.str (apiVersionEnumValue g v)))).lookup "kind" =
        some kDef := by
      simp [JValue.set, JValue.lookup,
        lookupEntries_setEntries_ne pes "apiVersion" "kind" _ (by decide), hkd']
    unfold applyGVKExt
    rw [hhk]
    simp only [if_true, ite_true, hg, hv, hkv, except_bind_ok, except_pure_bind, joinGV_str,
      hav, hk2, hkd2]
    rfl
  · rw [show (JValue.obj pes).set "apiVersion"
        (append_no_duplicates avDef "enum" (.str (apiVersionEnumValue g v))) =
        .obj (setEntries pes "apiVersion"
          (append_no_duplicates avDef "enum" (.str (apiVersionEnumValue g v)))) from rfl]
    rw [lookup_set_ne _ _ _ _ (by decide : "apiVersion" ≠ "kind")]
    exact lookupEntries_setEntries_self pes "apiVersion" _
  · rw [show (JValue.obj pes).set "apiVersion"
        (append_no_duplicates avDef "enum" (.str (apiVersionEnumValue g v))) =
        .obj (setEntries pes "apiVersion"
          (append_no_duplicates avDef "enum" (.str (apiVersionEnumValue g v)))) from rfl]
    exact lookup_set_self _ _ _

theorem c6_enum_values_witness :
    (JValue.obj [("apiVersion", .obj []), ("kind", .obj [])]).lookup "apiVersion" =
      some (.obj []) ∧
    (∃ props', applyGVKExt (.obj [("apiVersion", .obj []), ("kind", .obj [])])
        (.obj [("group", .str "batch"), ("version", .str "v1"), ("kind", .str "Job")]) =
        .ok props' ∧
      props'.lookup "apiVersion" =
        some (append_no_duplicates (.obj []) "enum" (.str (apiVersionEnumValue "batch" "v1"))) ∧
      props'.lookup "kind" = some (append_no_duplicates (.obj []) "enum" (.str "Job")) ∧
      apiVersionEnumValue "batch" "v1" =
        (if "batch" = "" then "v1" else if "v1" = "" then "batch"
         else "batch" ++ "/" ++ "v1")) :=
  ⟨rfl,
   c6_enum_values (.obj [("apiVersion", .obj []), ("kind", .obj [])])
     (.obj [("group", .str "batch"), ("version", .str "v1"), ("kind", .str "Job")])
     "batch" "v1" (.str "Job") (.obj []) (.obj []) rfl rfl rfl rfl rfl⟩

/-- C7.  Whenever the pre-3.0 Kubernetes container-level enrichment
completes, the components container maps
`io.k8s.apimachinery.pkg.util.intstr.IntOrString` to
`{oneOf: [{type: string}, {type: integer}]}` and
`io.k8s.apimachinery.pkg.api.resource.Quantity` to
`{oneOf: [{type: string}, {type: number}]}` — for an arbitrary initial
container, so any pre-existing definition under those names is
overwritten (command.py lines 53-63; the subsequent GVK loop leaves the
injected definitions unchanged because they have no `properties`). -/
theorem c7_synthetic_types_injected (comps comps' : List (String × JValue))
    (errs : List String)
    (h : enrichComponents comps = .ok (comps', errs)) :
    lookupEntries comps' intOrStringName = some intOrStringSchema ∧
    lookupEntries comps' quantityName = some quantitySchema := by
  unfold enrichComponents at h
  constructor
  · refine gvkEnrichEntries_lookup _ comps' errs h intOrStringName intOrStringSchema
      intOrStringSchema [intOrStringName ++ " has no properties"] ?_ rfl
    rw [lookupEntries_setEntries_ne _ _ _ _ (by decide : intOrStringName ≠ quantityName)]
    exact lookupEntries_setEntries_self _ _ _
  · refine gvkEnrichEntries_lookup _ comps' errs h quantityName quantitySchema
      quantitySchema [quantityName ++ " has no properties"] ?_ rfl
    exact lookupEntries_setEntries_self _ _ _

theorem c7_synthetic_types_injected_witness :
    enrichComponents [(intOrStringName, .obj [("type", .str "string")])] =
      .ok ([(intOrStringName, intOrStringSchema), (quantityName, quantitySchema)],
           [intOrStringName ++ " has no properties",
            quantityName ++ " has no properties"]) ∧
    lookupEntries [(intOrStringName, intOrStringSchema), (quantityName, quantitySchema)]
      intOrStringName = some intOrStringSchema ∧
    lookupEntries [(intOrStringName, intOrStringSchema), (quantityName, quantitySchema)]
      quantityName = some quantitySchema :=
  ⟨rfl,
   (c7_synthetic_types_injected [(intOrStringName, .obj [("type", .str "string")])]
     [(intOrStringName, intOrStringSchema), (quantityName, quantitySchema)]
     [intOrStringName ++ " has no properties", quantityName ++ " has no properties"] rfl).1,
   (c7_synthetic_types_injected [(intOrStringName, .obj [("type", .str "string")])]
     [(intOrStringName, intOrStringSchema), (quantityName, quantitySchema)]
     [intOrStringName ++ " has no properties", quantityName ++ " has no properties"] rfl).2⟩

/-- C8.  For every pre-3.0 run that succeeds, the Shared Definitions
Document `{"definitions": <container>}` is the FIRST document handed to
the persistence collaborator: every per-type write and the aggregate
index write appear strictly later in the write sequence, so the shared
definitions are persisted before any per-type processing (in particular
before any Dereferencer invocation) begins (command.py lines 89-90
versus 95-183). -/
theorem c8_shared_definitions_first (cfg : Config) (deref : JValue → Except String JValue)
    (data : JValue) (v : String) (res : ProcessResult)
    (hver : getVersionVal data = some (.str v))
    (hv3 : strLt v "3" = true)
    (hres : process cfg deref data = .ok res) :
    ∃ compsFinal rest,
      res.writes = ("_definitions.json", .obj [("definitions", .obj compsFinal)]) :: rest := by
  obtain ⟨dataEs, rfl⟩ : ∃ dataEs, data = JValue.obj dataEs := by
    cases data
    case obj l => exact ⟨l, rfl⟩
    all_goals simp [getVersionVal, JValue.lookup] at hver
  unfold process at hres
  dsimp only at hres
  rw [hver] at hres
  by_cases hvne : v = ""
  · subst hvne
    simp [JValue.truthy] at hres
  · have htr : (JValue.str v).truthy = true := by simp [JValue.truthy, hvne]
    simp only [htr, if_true, ite_true] at hres
    rcases hc : getComponents v dataEs with e | comps₀
    · rw [hc, Except_bind_error_raw] at hres
      simp at hres
    · rw [hc, Except_bind_ok_raw] at hres
      exact processCore_pre3_writes_head cfg deref v comps₀ res hv3 hres

theorem c8_shared_definitions_first_witness :
    getVersionVal (.obj [("swagger", .str "2.0"), ("definitions", .obj [])]) =
      some (.str "2.0") ∧
    strLt "2.0" "3" = true ∧
    (∃ res, process cfg0 derefOk (.obj [("swagger", .str "2.0"), ("definitions", .obj [])]) =
      .ok res) ∧
    ∃ compsFinal rest,
      (ProcessResult.mk [("_definitions.json", .obj [("definitions", .obj [])]),
          ("all.json", .obj [("oneOf", .arr [])])] [] [] []).writes =
        ("_definitions.json", .obj [("definitions", .obj compsFinal)]) :: rest :=
  ⟨rfl, rfl, ⟨_, rfl⟩,
   c8_shared_definitions_first cfg0 derefOk
     (.obj [("swagger", .str "2.0"), ("definitions", .obj [])]) "2.0"
     ⟨[("_definitions.json", .obj [("definitions", .obj [])]),
       ("all.json", .obj [("oneOf", .arr [])])], [], [], []⟩ rfl rfl rfl⟩

/-- Kubernetes + strict mode, all other flags off. -/
def cfgKS : Config := ⟨"_definitions.json", false, false, true, true, false⟩

/-- The loop outcome for `w.x.kubernetes.pkg.v1.Baz` in strict
Kubernetes mode: rejected inside the `try` block, yet the pre-`try`
mutations are already in place. -/
def outBaz : TypeOutcome :=
  ⟨.obj [("$schema", .str "http://json-schema.org/schema#"), ("type", .str "object"),
         ("additionalProperties", .bool false)],
   some "w.x.kubernetes.pkg.v1.Baz", none,
   some "An error occured processing Baz: w.x.kubernetes.pkg.v1.Baz not currently supported, due to use of pkg namespace"⟩

/-- C9.  Per-type processing is not atomic on failure: for a type whose
`try` block raised after the naming step (it was emitted AND an error
was logged), the components container after the loop still holds the
definition with the in-place mutations of command.py lines 120-124
applied — `$schema` set, `type` defaulted to `object` (a pre-existing
value kept), and, in strict mode, `additionalProperties: false`. -/
theorem c9_mutations_persist (cfg : Config) (version : String)
    (deref : JValue → Except String JValue) (entries : List (String × JValue))
    (acc : LoopAcc) (title : String) (es : List (String × JValue)) (out : TypeOutcome)
    (hnd : (entries.map Prod.fst).Nodup)
    (hmem : (title, JValue.obj es) ∈ entries)
    (hloop : runLoop cfg version deref entries = .ok acc)
    (hout : processType cfg version deref title (.obj es) = .ok out)
    (hemit : out.emitted.isSome) (_herr : out.err.isSome) :
    lookupEntries acc.comps title = some (mutateSpec cfg (.obj es)) ∧
    (mutateSpec cfg (.obj es)).lookup "$schema" = some (.str schemaFieldValue) ∧
    (mutateSpec cfg (.obj es)).lookup "type" =
      some ((lookupEntries es "type").getD (.str "object")) ∧
    (cfg.strict = true →
      (mutateSpec cfg (.obj es)).lookup "additionalProperties" = some (.bool false)) := by
  obtain ⟨hspec, _⟩ := processType_not_skipped cfg version deref title es out hout hemit
  refine ⟨?_, ?_, ?_, ?_⟩
  · rw [← hspec]
    exact runLoop_comps_lookup cfg version deref entries acc hloop hnd title (.obj es) out
      hmem hout
  · rw [mutateSpec_eq_obj]
    exact mutateEntries_lookup_schema cfg es
  · rw [mutateSpec_eq_obj]
    exact mutateEntries_lookup_type cfg es
  · intro hs
    rw [mutateSpec_eq_obj]
    exact mutateEntries_lookup_strict cfg es hs

theorem c9_mutations_persist_witness :
    runLoop cfgKS "3.0.0" derefOk [("w.x.kubernetes.pkg.v1.Baz", .obj [])] =
      .ok ⟨["w.x.kubernetes.pkg.v1.Baz"], [], [("An error occured processing Baz: w.x.kubernetes.pkg.v1.Baz not currently supported, due to use of pkg namespace" : String)],
           [("w.x.kubernetes.pkg.v1.Baz", outBaz.spec)]⟩ ∧
    processType cfgKS "3.0.0" derefOk "w.x.kubernetes.pkg.v1.Baz" (.obj []) = .ok outBaz ∧
    lookupEntries [("w.x.kubernetes.pkg.v1.Baz", outBaz.spec)] "w.x.kubernetes.pkg.v1.Baz" =
      some (mutateSpec cfgKS (.obj [])) ∧
    (mutateSpec cfgKS (.obj [])).lookup "$schema" = some (.str schemaFieldValue) ∧
    (mutateSpec cfgKS (.obj [])).lookup "type" =
      some ((lookupEntries [] "type").getD (.str "object")) ∧
    (cfgKS.strict = true →
      (mutateSpec cfgKS (.obj [])).lookup "additionalProperties" = some (.bool false)) :=
  ⟨rfl, rfl,
   (c9_mutations_persist cfgKS "3.0.0" derefOk [("w.x.kubernetes.pkg.v1.Baz", .obj [])]
      ⟨["w.x.kubernetes.pkg.v1.Baz"], [], ["An error occured processing Baz: w.x.kubernetes.pkg.v1.Baz not currently supported, due to use of pkg namespace"],
       [("w.x.kubernetes.pkg.v1.Baz", outBaz.spec)]⟩
      "w.x.kubernetes.pkg.v1.Baz" [] outBaz (by simp) (List.mem_singleton.mpr rfl)
      rfl rfl rfl rfl).1,
   (c9_mutations_persist cfgKS "3.0.0" derefOk [("w.x.kubernetes.pkg.v1.Baz", .obj [])]
      ⟨["w.x.kubernetes.pkg.v1.Baz"], [], ["An error occured processing Baz: w.x.kubernetes.pkg.v1.Baz not currently supported, due to use of pkg namespace"],
       [("w.x.kubernetes.pkg.v1.Baz", outBaz.spec)]⟩
      "w.x.kubernetes.pkg.v1.Baz" [] outBaz (by simp) (List.mem_singleton.mpr rfl)
      rfl rfl rfl rfl).2.1,
   (c9_mutations_persist cfgKS "3.0.0" derefOk [("w.x.kubernetes.pkg.v1.Baz", .obj [])]
      ⟨["w.x.kubernetes.pkg.v1.Baz"], [], ["An error occured processing Baz: w.x.kubernetes.pkg.v1.Baz not currently supported, due to use of pkg namespace"],
       [("w.x.kubernetes.pkg.v1.Baz", outBaz.spec)]⟩
      "w.x.kubernetes.pkg.v1.Baz" [] outBaz (by simp) (List.mem_singleton.mpr rfl)
      rfl rfl rfl rfl).2.2.1,
   (c9_mutations_persist cfgKS "3.0.0" derefOk [("w.x.kubernetes.pkg.v1.Baz", .obj [])]
      ⟨["w.x.kubernetes.pkg.v1.Baz"], [], ["An error occured processing Baz: w.x.kubernetes.pkg.v1.Baz not currently supported, due to use of pkg namespace"],
       [("w.x.kubernetes.pkg.v1.Baz", outBaz.spec)]⟩
      "w.x.kubernetes.pkg.v1.Baz" [] outBaz (by simp) (List.mem_singleton.mpr rfl)
      rfl rfl rfl rfl).2.2.2⟩

/-- C10.  With expansion disabled the output filename is always
`<last dot-delimited segment>.json` (first conjunct), so that — shown
here for a non-Kubernetes run, where no filter can drop a type — two
distinct qualified names sharing the same final segment produce two
successive writes to the SAME filename (the second overwriting the
first on disk), while the aggregate index still lists both names, each
as its own `$ref` entry, and both titles appear in the emitted list. -/
theorem c10_filename_collision (cfg : Config) (deref : JValue → Except String JValue)
    (t1 t2 : String) (e1 e2 : List (String × JValue))
    (hk : cfg.kubernetes = false) (hsa : cfg.stand_alone = false)
    (_hne : t1 ≠ t2) (hseg : lastSeg t1 = lastSeg t2) :
    (∀ (cfg₂ : Config) (version₂ : String) (deref₂ : JValue → Except String JValue)
        (title : String) (spec : JValue) (out : TypeOutcome) (fname : String) (doc : JValue),
        cfg₂.expanded = false →
        processType cfg₂ version₂ deref₂ title spec = .ok out →
        out.write = some (fname, doc) →
        fname = lastSeg title ++ ".json") ∧
    ∃ d1 d2 res,
      process cfg deref
          (.obj [("openapi", .str "3.0.0"),
                 ("components", .obj [("schemas", .obj [(t1, .obj e1), (t2, .obj e2)])])]) =
        .ok res ∧
      res.writes = [(lastSeg t1 ++ ".json", d1), (lastSeg t1 ++ ".json", d2),
                    ("all.json", .obj [("oneOf",
                      .arr [refEntry "3.0.0" cfg.pfx t1, refEntry "3.0.0" cfg.pfx t2])])] ∧
      res.types = [t1, t2] := by
  constructor
  · intro cfg₂ version₂ deref₂ title spec out fname doc hexp hout hwrite
    have hfn : fullName cfg₂ title = lastSeg title := by
      simp [fullName, hexp, lastSeg]
    cases spec with
    | obj es2 =>
        simp only [processType] at hout
        split at hout
        · simp only [Except.ok.injEq] at hout
          subst hout
          simp at hwrite
        · split at hout
          · simp only [Except.ok.injEq] at hout
            subst hout
            simp at hwrite
          · split at hout <;> simp only [Except.ok.injEq] at hout <;> subst hout
            · simp only [TypeOutcome.mk.injEq] at hwrite ⊢
              simp only [Option.some.injEq, Prod.mk.injEq] at hwrite
              exact hwrite.1 ▸ hfn ▸ rfl
            · simp at hwrite
    | null => simp [processType] at hout
    | bool b => simp [processType] at hout
    | num n => simp [processType] at hout
    | str s => simp [processType] at hout
    | arr xs => simp [processType] at hout
  · obtain ⟨d1, hd1⟩ := processType_success cfg "3.0.0" deref t1 e1 hk hsa
    obtain ⟨d2, hd2⟩ := processType_success cfg "3.0.0" deref t2 e2 hk hsa
    have hloop : runLoop cfg "3.0.0" deref [(t1, .obj e1), (t2, .obj e2)] =
        .ok ⟨[t1, t2],
             [(lastSeg t1 ++ ".json", d1), (lastSeg t2 ++ ".json", d2)], [],
             [(t1, mutateSpec cfg (.obj e1)), (t2, mutateSpec cfg (.obj e2))]⟩ := by
      rw [runLoop_cons, hd1, except_bind_ok, runLoop_cons, hd2, except_bind_ok, runLoop_nil,
        except_bind_ok]
      rfl
    refine ⟨d1, d2,
      ⟨[(lastSeg t1 ++ ".json", d1), (lastSeg t2 ++ ".json", d2),
        ("all.json", .obj [("oneOf",
          .arr [refEntry "3.0.0" cfg.pfx t1, refEntry "3.0.0" cfg.pfx t2])])],
       [], [t1, t2],
       [(t1, mutateSpec cfg (.obj e1)), (t2, mutateSpec cfg (.obj e2))]⟩, ?_, ?_, ?_⟩
    · have hproc : process cfg deref
          (.obj [("openapi", .str "3.0.0"),
                 ("components", .obj [("schemas", .obj [(t1, .obj e1), (t2, .obj e2)])])]) =
          processCore cfg deref "3.0.0" [(t1, .obj e1), (t2, .obj e2)] := rfl
      rw [hproc]
      unfold processCore
      rw [show (strLt "3.0.0" "3" && cfg.kubernetes) = false from rfl,
          show (strLt "3.0.0" "3" && cfg.strict) = false from rfl]
      simp only [Bool.false_eq_true, if_neg, ite_false, not_false_eq_true,
        Except_bind_ok_raw]
      rw [hloop]
      rfl
    · simp [hseg]
    · rfl

theorem c10_filename_collision_witness :
    cfg0.kubernetes = false ∧ cfg0.stand_alone = false ∧
    ("a.v1.Thing" : String) ≠ "b.v2.Thing" ∧ lastSeg "a.v1.Thing" = lastSeg "b.v2.Thing" ∧
    ((∀ (cfg₂ : Config) (version₂ : String) (deref₂ : JValue → Except String JValue)
        (title : String) (spec : JValue) (out : TypeOutcome) (fname : String) (doc : JValue),
        cfg₂.expanded = false →
        processType cfg₂ version₂ deref₂ title spec = .ok out →
        out.write = some (fname, doc) →
        fname = lastSeg title ++ ".json") ∧
     ∃ d1 d2 res,
      process cfg0 derefOk
          (.obj [("openapi", .str "3.0.0"),
                 ("components", .obj [("schemas",
                   .obj [("a.v1.Thing", .obj []), ("b.v2.Thing", .obj [])])])]) =
        .ok res ∧
      res.writes = [(lastSeg "a.v1.Thing" ++ ".json", d1),
                    (lastSeg "a.v1.Thing" ++ ".json", d2),
                    ("all.json", .obj [("oneOf",
                      .arr [refEntry "3.0.0" cfg0.pfx "a.v1.Thing",
                            refEntry "3.0.0" cfg0.pfx "b.v2.Thing"])])] ∧
      res.types = ["a.v1.Thing", "b.v2.Thing"]) :=
  ⟨rfl, rfl, by decide, rfl,
   c10_filename_collision cfg0 derefOk "a.v1.Thing" "b.v2.Thing" [] [] rfl rfl
     (by decide) rfl⟩

end Openapi2Jsonschema
